/-
  Verification of the parking data pipeline of this repository
  (backend/lib/areas.js, backend/lib/geo.js, backend/lib/opendatasoft.js,
  backend/server.js).

  Modelling conventions used throughout this development:

  * JS numbers are embedded as rationals (ℚ); timestamps are epoch
    milliseconds embedded as ℤ.  The source keys hourly buckets by
    ISO-8601 hour strings and sorts them with string comparison; for the
    fixed-width ISO format this order coincides with the numeric order of
    the underlying millisecond values, so keys are embedded as ℤ directly.
  * JS `Map` objects are embedded as insertion-ordered association lists:
    `mapSet` rewrites an existing key in place and appends a fresh key at
    the end, exactly the iteration order JS guarantees; `Set` objects are
    embedded as duplicate-free lists in insertion order.
  * Upstream HTTP calls are oracles: each request's behaviour is a field
    of an environment structure, with `Except Unit rows` distinguishing a
    rejected promise (timeout / non-2xx / transport error) from a payload.
  * The h3 library functions (latLngToCell, cellToLatLng, cellToBoundary)
    and the trigonometric haversine distance are taken as function
    parameters: they are external, deterministic pure functions whose
    numeric values none of the claims depend on.
  * `JS falsy` checks on optional values are embedded as `Option` with
    `none` for the absent/falsy case; this is noted at each use site.
-/
import Mathlib

set_option maxRecDepth 16000
set_option maxHeartbeats 1000000

/-- Model of `Math.round` of JS: round half toward +∞ (JS rounds .5 up). -/
def jsRound (q : ℚ) : ℚ := ((⌊q + 1/2⌋ : ℤ) : ℚ)

/-- Model of `Number(x.toFixed(2))`: round to 2 decimal places (exact-value model of
the JS decimal formatting). -/
def toFixed2 (q : ℚ) : ℚ := jsRound (q * 100) / 100

/-- Model of `Number(x.toFixed(3))`: round to 3 decimal places. -/
def toFixed3 (q : ℚ) : ℚ := jsRound (q * 1000) / 1000

/-- Model of `Math.min(1, Math.max(0, x))` (the source also writes it as
`Math.max(0, Math.min(1, x))`; the two are equal). -/
def clamp01 (q : ℚ) : ℚ := min 1 (max 0 q)

/-- Lookup in an insertion-ordered association list (model of `Map.get`). -/
def mapGet? {κ β : Type} [DecidableEq κ] (k : κ) : List (κ × β) → Option β
  | [] => none
  | e :: t => if e.1 = k then some e.2 else mapGet? k t

/-- Insert-or-replace in an insertion-ordered association list (model of
`Map.set`): an existing key is rewritten in place, a new key is appended. -/
def mapSet {κ β : Type} [DecidableEq κ] (k : κ) (v : β) : List (κ × β) → List (κ × β)
  | [] => [(k, v)]
  | e :: t => if e.1 = k then (k, v) :: t else e :: mapSet k v t

/-- Model of `Set.add` of JS embedded on duplicate-free lists in insertion order. -/
def setAdd {α : Type} [BEq α] (x : α) (s : List α) : List α :=
  if s.contains x then s else s ++ [x]

/-- Floor an epoch-millisecond timestamp to its UTC hour
(`_floorHourUTC` in lib/opendatasoft.js, `hourISO` in server.js: both
zero the minutes/seconds/milliseconds of the date). -/
def _floorHourUTC (t : ℤ) : ℤ := t.ediv 3600000 * 3600000

/-- Model of `getUTCHours()` of an epoch-millisecond timestamp. -/
def utcHourOf (t : ℤ) : ℕ := ((t.ediv 3600000).emod 24).toNat

-- ==========================================================================
-- server.js — hour-of-day (HOD) profile and forecast (claims C2)
-- ==========================================================================

/-- A row of an hourly series as consumed by `buildHodProfile`
(`{ts, free, occ, total}`).  `ts = none` embeds the case where the raw
`ts` is not a string/Date or does not parse (`isNaN(t)`), which the
source skips. -/
structure StoreRow where
  ts : Option ℤ
  free : ℚ
  occ : ℚ
  total : ℚ
deriving DecidableEq

/-- Model of `_quantile(sortedArr, q)` of server.js: linear-interpolation empirical
quantile.  Out-of-range indices (impossible for the `q ∈ {0.1, 0.9}` call
sites) are read as 0. -/
def _quantile (a : List ℚ) (q : ℚ) : Option ℚ :=
  if a.length = 0 then none
  else
    let pos := ((a.length : ℚ) - 1) * q
    let base := (⌊pos⌋).toNat
    let rest := pos - ((⌊pos⌋ : ℤ) : ℚ)
    match a.get? (base + 1) with
    | some nxt => some (a.getD base 0 + rest * (nxt - a.getD base 0))
    | none => some (a.getD base 0)

/-- The 24-slot accumulation step of `buildHodProfile`: push the free-ratio
of one row onto its hour-of-day slot. -/
def hodPush (buckets : List (List ℚ)) (h : ℕ) (fr : ℚ) : List (List ℚ) :=
  buckets.set h (buckets.getD h [] ++ [fr])

/-- The hour-of-day profile produced by `buildHodProfile(rows)` of
server.js: per hour-of-day mean free-ratio with empirical 10th/90th
percentiles, defaulting to `{mean := 0.5, q10 := 0.25, q90 := 0.9}` for
hours with no samples. -/
structure HodProfile where
  mean : List ℚ
  q10 : List ℚ
  q90 : List ℚ
  totalFromRows : ℚ
deriving DecidableEq

/-- Model of `buildHodProfile(rows)` of server.js. -/
def buildHodProfile (rows : List StoreRow) : HodProfile :=
  let acc := rows.foldl
    (fun (st : List (List ℚ) × List ℚ) r =>
      match r.ts with
      | none => st
      | some t =>
        let h := utcHourOf t
        let tot := r.total
        let free := r.free
        let denom := if 0 < tot then tot else max 1 (free + r.occ)
        let fr := clamp01 (free / denom)
        let buckets := hodPush st.1 h fr
        let totals := if 0 < tot then st.2 ++ [tot] else st.2
        (buckets, totals))
    (List.replicate 24 [], [])
  let mean := (List.range 24).map (fun h =>
    let arr := List.insertionSort (· ≤ ·) (acc.1.getD h [])
    if arr.length ≠ 0 then clamp01 (arr.sum / (arr.length : ℚ)) else 1/2)
  let q10 := (List.range 24).map (fun h =>
    let arr := List.insertionSort (· ≤ ·) (acc.1.getD h [])
    if arr.length ≠ 0 then
      match _quantile arr (1/10) with
      | some lo => clamp01 lo
      | none => 1/4
    else 1/4)
  let q90 := (List.range 24).map (fun h =>
    let arr := List.insertionSort (· ≤ ·) (acc.1.getD h [])
    if arr.length ≠ 0 then
      match _quantile arr (9/10) with
      | some hi => clamp01 hi
      | none => 9/10
    else 9/10)
  let totalFromRows := match acc.2 with
    | [] => 0
    | t :: ts => ts.foldl max t
  { mean := mean, q10 := q10, q90 := q90, totalFromRows := totalFromRows }

/-- A `ForecastPoint` of server.js
(`{ts, expected_available, lo80, hi80, free_ratio}`). -/
structure ForecastPt where
  ts : ℤ
  expected_available : ℚ
  lo80 : ℚ
  hi80 : ℚ
  free_ratio : ℚ
deriving DecidableEq

/-- Model of `fr` of the loop body of `forecastNextHoursFromHod`:
`Math.min(1, Math.max(0, mean[hod] ?? 0.5))`. -/
def frOf (mean : List ℚ) (hod : ℕ) : ℚ := clamp01 (mean.getD hod (1/2))

/-- Model of `frLo` of the loop body: `Math.min(1, Math.max(0, q10[hod] ?? (fr*0.8)))`. -/
def frLoOf (mean q10 : List ℚ) (hod : ℕ) : ℚ :=
  clamp01 (q10.getD hod (frOf mean hod * (4/5)))

/-- Model of `frHi` of the loop body:
`Math.min(1, Math.max(0, q90[hod] ?? Math.min(1, fr*1.1)))`. -/
def frHiOf (mean q90 : List ℚ) (hod : ℕ) : ℚ :=
  clamp01 (q90.getD hod (min 1 (frOf mean hod * (11/10))))

/-- The loop body of `forecastNextHoursFromHod`: one forecast point for
hour-of-day `hod` at timestamp `ts` against capacity `baseTotal`. -/
def hodPoint (baseTotal : ℤ) (mean q10 q90 : List ℚ) (hod : ℕ) (ts : ℤ) : ForecastPt :=
  let fr := frOf mean hod
  let frLo := frLoOf mean q10 hod
  let frHi := frHiOf mean q90 hod
  let muAvail := fr * (baseTotal : ℚ)
  { ts := ts
    expected_available := jsRound muAvail
    lo80 := max 0 (jsRound (frLo * (baseTotal : ℚ)))
    hi80 := min (baseTotal : ℚ) (jsRound (frHi * (baseTotal : ℚ)))
    free_ratio := fr }

/-- Model of `forecastNextHoursFromHod({hours, baseTotal, mean, q10, q90})` of
server.js.  The source starts at the next full hour after `new Date()`;
that starting hour (as an hour index since the epoch) is the explicit
parameter `startHour`. -/
def forecastNextHoursFromHod (hours : ℕ) (baseTotal : ℤ) (mean q10 q90 : List ℚ)
    (startHour : ℕ) : List ForecastPt :=
  (List.range hours).map (fun i =>
    hodPoint baseTotal mean q10 q90 ((startHour + i) % 24)
      (((startHour + i : ℕ) : ℤ) * 3600000))

-- ==========================================================================
-- backend/lib/areas.js — spatial aggregation into H3 cells (claims C3,C4,C6)
-- ==========================================================================

/-- A normalized sensor record as consumed by `aggregateSensorsToAreas`
(the shape produced by `mapSensorRecordToParking`).  `lat`/`lng` are
`none` when the JS value is not a finite number; `capacity = none` embeds
a non-finite capacity; `available_spots = none` embeds `null` (unknown);
`id = none` embeds a falsy id; `updated_at = none` embeds a falsy
timestamp. -/
structure SensorItem where
  id : Option String
  lat : Option ℚ
  lng : Option ℚ
  capacity : Option ℚ
  available_spots : Option ℚ
  updated_at : Option ℤ
deriving DecidableEq

/-- Model of `Number.isFinite(p.capacity) ? p.capacity : 1`. -/
def capNum (p : SensorItem) : ℚ := p.capacity.getD 1

/-- Model of `Number(p.available_spots) || 0`: `null`/`undefined` coerce to 0. -/
def availNum (p : SensorItem) : ℚ := p.available_spots.getD 0

/-- The per-cell accumulator of `aggregateSensorsToAreas` before geometry
is attached. -/
structure AreaBucket where
  area_id : ℕ
  total_bays : ℚ
  available_bays : ℚ
  updated_at : Option ℤ
  sample_bays : List String
deriving DecidableEq

/-- The bucket mutation performed by one iteration of the first loop of
`aggregateSensorsToAreas`: add the record's capacity and coerced
available count, push a sample id (when the id is truthy and fewer than
10 are kept), and advance `updated_at` to the record's timestamp when it
is newer (`Date.now()` — the `now` parameter — standing in for a falsy
`updated_at`). -/
def bumpBucket (now : ℤ) (p : SensorItem) (b : AreaBucket) : AreaBucket :=
  let b1 := { b with total_bays := b.total_bays + capNum p,
                     available_bays := b.available_bays + availNum p }
  let b2 :=
    if b1.sample_bays.length < 10 then
      match p.id with
      | some i => { b1 with sample_bays := b1.sample_bays ++ [i] }
      | none => b1
    else b1
  let curTs := p.updated_at.getD now
  let maxTs := (b2.updated_at).getD 0
  if maxTs < curTs then { b2 with updated_at := some curTs } else b2

/-- The loop body of `aggregateSensorsToAreas`: fold one record into the
bucket map.  `latLngToCell` is the h3 cell-assignment function (a pure
function parameter); records lacking finite coordinates are skipped. -/
def aggStep (latLngToCell : ℚ → ℚ → ℕ → ℕ) (now : ℤ) (res : ℕ)
    (m : List (ℕ × AreaBucket)) (p : SensorItem) : List (ℕ × AreaBucket) :=
  match p.lat, p.lng with
  | some la, some lo =>
    let cell := latLngToCell la lo res
    let b := (mapGet? cell m).getD
      { area_id := cell, total_bays := 0, available_bays := 0,
        updated_at := none, sample_bays := [] }
    mapSet cell (bumpBucket now p b) m
  | _, _ => m

/-- The bucket map built by the first loop of `aggregateSensorsToAreas`. -/
def aggBuckets (latLngToCell : ℚ → ℚ → ℕ → ℕ) (now : ℤ) (items : List SensorItem)
    (res : ℕ) : List (ℕ × AreaBucket) :=
  items.foldl (aggStep latLngToCell now res) []

/-- An `AreaCell` of the source (`area_id, center, boundary, total_bays,
available_bays, occupancy_rate, updated_at, sample_bays`). -/
structure AreaCell where
  area_id : ℕ
  center : ℚ × ℚ
  boundary : List (ℚ × ℚ)
  total_bays : ℚ
  available_bays : ℚ
  occupancy_rate : ℚ
  updated_at : Option ℤ
  sample_bays : List String
deriving DecidableEq

/-- The second loop of `aggregateSensorsToAreas`: attach h3 geometry and
compute `occupancy_rate = Number((total>0 ? 1-avail/total : 0).toFixed(2))`. -/
def toAreaCell (cellToLatLng : ℕ → ℚ × ℚ) (cellToBoundary : ℕ → List (ℚ × ℚ))
    (b : AreaBucket) : AreaCell :=
  let occRate := if 0 < b.total_bays then 1 - b.available_bays / b.total_bays else 0
  { area_id := b.area_id
    center := cellToLatLng b.area_id
    boundary := cellToBoundary b.area_id
    total_bays := b.total_bays
    available_bays := b.available_bays
    occupancy_rate := toFixed2 occRate
    updated_at := b.updated_at
    sample_bays := b.sample_bays }

/-- Model of `aggregateSensorsToAreas(items, {res})` of backend/lib/areas.js. -/
def aggregateSensorsToAreas (latLngToCell : ℚ → ℚ → ℕ → ℕ)
    (cellToLatLng : ℕ → ℚ × ℚ) (cellToBoundary : ℕ → List (ℚ × ℚ))
    (now : ℤ) (items : List SensorItem) (res : ℕ) : List AreaCell :=
  (aggBuckets latLngToCell now items res).map
    (fun e => toAreaCell cellToLatLng cellToBoundary e.2)

-- ==========================================================================
-- backend/lib/areas.js — ranking (claim C10)
-- ==========================================================================

/-- An output element of `rankAreas`: the input cell spread into a new
object (`{...a}`) extended with exactly the two fields `_distance_m` and
`_score`. -/
structure RankedArea where
  area : AreaCell
  distance_m : Option ℚ
  score : ℚ
deriving DecidableEq

/-- Model of `cond ? f(d) : 0` on a nullable distance: JS treats both `null` and
`0` as falsy, and for `d = 0` the two branches agree on the call sites'
`f` (all are `d ↦ d/k`). -/
def jsNumCond (d : Option ℚ) (f : ℚ → ℚ) : ℚ :=
  match d with
  | some v => if v = 0 then 0 else f v
  | none => 0

/-- The `.map` callback of `rankAreas`: spread the cell and attach
`_distance_m` and `_score`.  `hav` is the haversine distance (a
transcendental external function, taken as a parameter); `lat`/`lng` are
`none` when not finite numbers. -/
def scoreArea (hav : ℚ → ℚ → ℚ → ℚ → ℚ) (lat lng : Option ℚ) (by_ : String)
    (a : AreaCell) : RankedArea :=
  let d : Option ℚ :=
    match lat, lng with
    | some la, some lo => some (hav la lo a.center.1 a.center.2)
    | _, _ => none
  let available := a.available_bays
  let occ := a.occupancy_rate
  let score :=
    if by_ = "availability" then available - jsNumCond d (fun v => v / 50)
    else if by_ = "occupancy" then (1 - occ) - jsNumCond d (fun v => v / 5000)
    else if by_ = "distance" then -(d.getD 0)
    else (available * 2) - jsNumCond d (fun v => v / 30) - (occ * 10)
  { area := a, distance_m := d, score := toFixed3 score }

/-- Model of `rankAreas(areas, {lat,lng,by})` of backend/lib/areas.js.  The stable
descending sort of JS `Array.prototype.sort` with comparator
`(x,y) => y._score - x._score` is embedded as a stable insertion sort. -/
def rankAreas (hav : ℚ → ℚ → ℚ → ℚ → ℚ) (lat lng : Option ℚ) (by_ : String)
    (areas : List AreaCell) : List RankedArea :=
  List.insertionSort (fun x y => y.score ≤ x.score)
    (areas.map (scoreArea hav lat lng by_))

-- ==========================================================================
-- server.js — in-memory per-area hourly store (claim C8)
-- ==========================================================================

/-- The sample argument of `recordAreaSample`
(`{free, occ, total, ts}` with `ts` defaulting to `new Date()`). -/
structure AreaSample where
  free : ℚ
  occ : ℚ
  total : ℚ
  ts : Option ℤ
deriving DecidableEq

/-- One merged bucket of the in-memory store (`{ts, free, occ, total, n}`);
the `ts` field always equals the map key it is stored under, so the key
carries it here. -/
structure HourRec where
  free : ℚ
  occ : ℚ
  total : ℚ
  n : ℕ
deriving DecidableEq

/-- The whole `AREA_HOURLY` store: areaId → (hour key → merged bucket). -/
def AreaStore : Type := List (String × List (ℤ × HourRec))

/-- Model of `_pruneOld(buckets, days)` of server.js: delete every bucket whose
hour key is older than `days` days before `Date.now()` (passed as `now`). -/
def _pruneOld (now : ℤ) (buckets : List (ℤ × HourRec)) (days : ℤ) : List (ℤ × HourRec) :=
  let cut := now - days * 24 * 3600 * 1000
  buckets.filter (fun e => decide (¬ e.1 < cut))

/-- Model of `recordAreaSample(areaId, {free, occ, total, ts})` of server.js.
`now` is `Date.now()` / `new Date()` during the call.  A falsy `areaId`
(the empty string) is rejected before any write. -/
def recordAreaSample (now : ℤ) (areaId : String) (s : AreaSample)
    (store : AreaStore) : AreaStore :=
  if areaId = "" then store
  else
    let key := _floorHourUTC (s.ts.getD now)
    let buckets := (mapGet? areaId store).getD []
    let b := (mapGet? key buckets).getD { free := 0, occ := 0, total := 0, n := 0 }
    let b1 : HourRec :=
      { free := b.free + s.free, occ := b.occ + s.occ,
        total := b.total + s.total, n := b.n + 1 }
    mapSet areaId (_pruneOld now (mapSet key b1 buckets) 30) store

-- ==========================================================================
-- server.js — record normalizer (claim C7)
-- ==========================================================================

/-- JS whitespace test used by `String.prototype.trim` (the ASCII cases). -/
def isWsChar (c : Char) : Bool :=
  c = ' ' || c = '\t' || c = '\n' || c = '\r' || c = '\x0b' || c = '\x0c'

/-- Model of `String.prototype.trim`. -/
def jsTrim (s : List Char) : List Char :=
  ((s.dropWhile isWsChar).reverse.dropWhile isWsChar).reverse

/-- Model of `String.prototype.toLowerCase` (ASCII letters; the status vocabulary
of the source is ASCII). -/
def jsToLowerChar (c : Char) : Char :=
  if 'A' ≤ c ∧ c ≤ 'Z' then Char.ofNat (c.toNat + 32) else c

/-- Model of `String.prototype.toLowerCase` over a character list. -/
def jsToLower (s : List Char) : List Char := s.map jsToLowerChar

/-- Whether `pat` occurs at the start of `s`. -/
def startsWithChars : List Char → List Char → Bool
  | [], _ => true
  | _ :: _, [] => false
  | a :: as, b :: bs => a = b && startsWithChars as bs

/-- Model of `String.prototype.includes`: whether `pat` occurs anywhere in `s`. -/
def containsSub (pat : List Char) : List Char → Bool
  | [] => pat.isEmpty
  | c :: t => startsWithChars pat (c :: t) || containsSub pat t

/-- Model of `Array.prototype.includes` over a word list. -/
def memStr (s : List Char) (l : List (List Char)) : Bool :=
  l.any (fun w => decide (w = s))

/-- The exact-match vocabulary mapped to `availability = true` (free). -/
def freeWords : List (List Char) :=
  ["vacant".data, "unoccupied".data, "free".data, "available".data,
   "clear".data, "unocc".data, "empty".data, "not present".data,
   "no".data, "0".data]

/-- The exact-match vocabulary mapped to `availability = false` (occupied). -/
def occupiedWords : List (List Char) :=
  ["occupied".data, "present".data, "busy".data, "full".data,
   "yes".data, "1".data, "true".data]

/-- The first non-`undefined`/non-`null` candidate status value of a raw
row: a string, a boolean, or a number. -/
inductive StatusVal where
  | str (s : List Char)
  | bool (b : Bool)
  | num (q : ℚ)
deriving DecidableEq

/-- The availability-inference block of `mapSensorRecordToParking`
(server.js): tri-state `{some true = free, some false = occupied,
none = unknown}`. -/
def inferAvailability : Option StatusVal → Option Bool
  | some (.str s0) =>
    let s := jsToLower (jsTrim s0)
    if memStr s freeWords then some true
    else if memStr s occupiedWords then some false
    else if containsSub "unoccupied".data s || containsSub "vacant".data s
        || containsSub "available".data s then some true
    else if containsSub "occupied".data s || containsSub "present".data s then
      some false
    else none
  | some (.bool b) => some (!b)
  | some (.num q) => if q = 0 then some true else if q = 1 then some false else none
  | none => none

/-- A raw upstream row as seen by `mapSensorRecordToParking`, with each
candidate-field chain already resolved to its first defined value
(the chains are plain key-presence probes in the source). -/
structure RawSensorRow where
  lat : Option ℚ
  lon : Option ℚ
  resolvedId : Option String
  statusVal : Option StatusVal
  updated : Option ℤ
deriving DecidableEq

/-- Model of `mapSensorRecordToParking(r)` of server.js. `now` is the
`new Date().toISOString()` fallback timestamp.  The `${lat},${lon}`
last-resort id is folded into `resolvedId`'s default; the `name` and
`price` fields play no role in any claim and are omitted. -/
def mapSensorRecordToParking (now : ℤ) (r : RawSensorRow) : SensorItem :=
  let availability := inferAvailability r.statusVal
  { id := some (r.resolvedId.getD "")
    lat := r.lat
    lng := r.lon
    capacity := some 1
    available_spots :=
      match availability with
      | some true => some 1
      | some false => some 0
      | none => none
    updated_at := some (r.updated.getD now) }

-- ==========================================================================
-- backend/lib/opendatasoft.js — annual event aggregation (claim C5)
-- ==========================================================================

/-- One row of an annual parking-event dataset, with the candidate-field
chains already resolved: `bay` is the value of the first defined
`BAY_FIELDS` candidate, `arrival`/`departure` the parsed millisecond
values of the first defined `ARRIVAL_FIELDS`/`DEPARTURE_FIELDS`
candidates (`none` for absent or falsy; rows whose dates fail to parse
are outside this embedding — they are skipped by the source's `isNaN`
guard exactly like absent ones when both are missing). -/
structure EventRow where
  recordid : Option String
  bay : Option String
  arrival : Option ℤ
  departure : Option ℤ
deriving DecidableEq

/-- One bucket of the output series of the annual aggregation
(`{ts, occ, total, free}`). -/
structure HourlyBucket where
  ts : ℤ
  occ : ℚ
  total : ℚ
  free : ℚ
deriving DecidableEq

/-- The `{capacity, series}` result shape of the annual pipeline. -/
structure AnnualResult where
  capacity : ℚ
  series : List HourlyBucket
deriving DecidableEq

/-- The hour-aligned stamps visited by the bucket walk of
`_aggregateEventsToHourly`: from `_floorHourUTC t0` up to
`_floorHourUTC t1` in 1-hour steps. -/
def hourWalk (t0 t1 : ℤ) : List ℤ :=
  if _floorHourUTC t1 < _floorHourUTC t0 then []
  else (List.range ((_floorHourUTC t1 - _floorHourUTC t0).toNat / 3600000 + 1)).map
    (fun i => _floorHourUTC t0 + (i : ℤ) * 3600000)

/-- The per-row body of `_aggregateEventsToHourly`: clip the stay to the
window, increment every overlapped hour bucket, and collect the bay id
(a falsy bay — the empty string — is not collected).  The source's
intermediate bucket objects carry a dead `total: 0` field; only the
occupied count is kept here. -/
def evStep (startISO endISO : ℤ) (st : List String × List (ℤ × ℚ)) (r : EventRow) :
    List String × List (ℤ × ℚ) :=
  let bay := r.bay.getD ""
  match r.arrival, r.departure with
  | none, none => st
  | _, _ =>
    let arr := r.arrival.getD (r.departure.getD 0)
    let dep := r.departure.getD arr
    let t0 := max arr startISO
    let t1 := min dep endISO
    let p := if t1 < t0 then (t1, t0) else (t0, t1)
    let buckets := (hourWalk p.1 p.2).foldl
      (fun m h => mapSet h ((mapGet? h m).getD 0 + 1) m) st.2
    let caps := if bay ≠ "" then setAdd bay st.1 else st.1
    (caps, buckets)

/-- Model of `_aggregateEventsToHourly(rows, {startISO, endISO})` of
backend/lib/opendatasoft.js: walk each stay's overlapped hour buckets,
cap per-bucket occupancy at the distinct-bay capacity, and sort the
series by timestamp. -/
def _aggregateEventsToHourly (rows : List EventRow) (startISO endISO : ℤ) : AnnualResult :=
  let st := rows.foldl (evStep startISO endISO) ([], [])
  let capacity : ℚ := (st.1.length : ℚ)
  let series := (List.insertionSort (fun a b => a.1 ≤ b.1) st.2).map (fun e =>
    let occ := min e.2 capacity
    { ts := e.1, occ := occ, total := capacity, free := max 0 (capacity - occ) })
  { capacity := capacity, series := series }

-- ==========================================================================
-- backend/lib/opendatasoft.js — pedestrian proxy and annual entry point
-- (claim C1)
-- ==========================================================================

/-- A pedestrian-sensor location row, coordinates already extracted from
the `location`/`geo_point_2d` shapes (`none` = not a finite number; such
rows are filtered out by the source). -/
structure PedLoc where
  id : Option String
  lat : Option ℚ
  lng : Option ℚ
deriving DecidableEq

/-- A pedestrian hourly-count row: `hourday` is the first defined of the
`hourday`/`hour`/`hod` fields, `count` the first defined count candidate
(via the detected count field or the fallback chain), `tsVal` the value
under the detected time field when present. -/
structure PedRow where
  hourday : Option ℚ
  count : Option ℚ
  tsVal : Option ℤ
deriving DecidableEq

/-- The upstream behaviour seen by one `fetchAnnualHourlyByRadius` call.
Each field is one oracle: `Except Unit rows` distinguishes a rejected
request from a payload.

* `annualFetched`: the `(datasetId, row)` pairs accumulated by
  `_fetchAnnualEventsOverlaps`' per-dataset arrival/departure fetch
  loops.  Those loops wrap every request in try/catch and swallow
  failures field-by-field, so the helper itself always resolves; only
  its yielded rows matter and they are the oracle here.
* `liveIds`: the resolved (non-null) sensor ids of the
  `fetchLiveSensors` call used for capacity estimation — this call is
  inside its own try/catch in the source.
* `pedLocRows`: the pedestrian sensor-locations request — this request
  is NOT inside any try/catch in `_proxyAnnualByPedestrian`.
* `probeKeys`: the keys of the 1-row probe of the counts dataset
  (guarded by try/catch; a failure leaves both detected fields null).
* `pedPage offset`: the paged counts request with the full `where`
  clause at a given offset.
* `pedPage2 offset`: the paged retry without the time filter, run from
  inside the catch block; its requests are NOT guarded. -/
structure AnnualEnv where
  annualFetched : List (String × EventRow)
  liveIds : Except Unit (List String)
  pedLocRows : Except Unit (List PedLoc)
  probeKeys : Except Unit (List String)
  pedPage : ℕ → Except Unit (List PedRow)
  pedPage2 : ℕ → Except Unit (List PedRow)

/-- The dedup key of `_fetchAnnualEventsOverlaps`: `ds|recordid` when a
record id exists, else `ds|bay|arrival|departure`. -/
def overlapKey (ds : String) (r : EventRow) : String :=
  match r.recordid with
  | some rid => ds ++ "|" ++ rid
  | none =>
    ds ++ "|" ++ r.bay.getD "" ++ "|"
      ++ (match r.arrival with | some a => toString a | none => "") ++ "|"
      ++ (match r.departure with | some d => toString d | none => "")

/-- Model of `_fetchAnnualEventsOverlaps` of backend/lib/opendatasoft.js reduced to
its pure tail: deduplicate the fetched rows by `overlapKey`, keeping
first occurrences in order.  (The fetching itself — field detection plus
per-candidate-field paged requests, every failure swallowed — is the
`annualFetched` oracle.) -/
def _fetchAnnualEventsOverlaps (env : AnnualEnv) : List EventRow :=
  (env.annualFetched.foldl
    (fun (acc : List String × List EventRow) dr =>
      let key := overlapKey dr.1 dr.2
      if acc.1.contains key then acc else (acc.1 ++ [key], acc.2 ++ [dr.2]))
    ([], [])).2

/-- The fixed diurnal free-ratio template of the synthetic fallback curve
(low 07:00–09:00 and 16:00–19:00, moderate mid-day, high overnight). -/
def diurnalShape (h : ℕ) : ℚ :=
  if 7 ≤ h ∧ h ≤ 9 then 15/100
  else if 10 ≤ h ∧ h ≤ 15 then 4/10
  else if 16 ≤ h ∧ h ≤ 19 then 2/10
  else 7/10

/-- The hourly loop stamps `for (t = start; t <= end; t += 1h)` used by
every series generator of the proxy. -/
def hourStamps (startISO endISO : ℤ) : List ℤ :=
  if endISO < startISO then []
  else (List.range ((endISO - startISO).toNat / 3600000 + 1)).map
    (fun i => startISO + (i : ℤ) * 3600000)

/-- The synthetic diurnal series against capacity `cap`.  The source
spells this block out twice verbatim (in `_proxyAnnualByPedestrian` for
the no-pedestrian-sensors case and in `fetchAnnualHourlyByRadius` for the
empty-proxy-series case); it is defined once here. -/
def syntheticSeries (cap : ℚ) (startISO endISO : ℤ) : List HourlyBucket :=
  (hourStamps startISO endISO).map (fun t =>
    let free := max 0 (min cap (jsRound (cap * diurnalShape (utcHourOf t))))
    { ts := t, occ := cap - free, total := cap, free := free })

/-- The retry paging loop run from inside the catch block of the counts
fetch (no time filter).  Its requests are NOT wrapped in try/catch: a
rejection here escapes `_proxyAnnualByPedestrian`. -/
def pedLoopInner (page2 : ℕ → Except Unit (List PedRow)) (offset : ℕ)
    (acc : List PedRow) : Except Unit (List PedRow) :=
  match page2 offset with
  | .error e => .error e
  | .ok chunk =>
    if h0 : chunk.length = 0 then .ok acc
    else
      let acc1 := acc ++ chunk
      if h1 : chunk.length < 100 then .ok acc1
      else if h2 : 100000 ≤ offset + chunk.length then .ok acc1
      else pedLoopInner page2 (offset + chunk.length) acc1
termination_by 100000 - offset
decreasing_by omega

/-- The main paging loop of the counts fetch.  A rejected page triggers
the catch block: when a time filter was in use the whole fetch is redone
without it (`pedLoopInner`, unguarded) and the detected time field is
nulled; otherwise the loop just stops with what it has. -/
def pedLoopOuter (page : ℕ → Except Unit (List PedRow))
    (page2 : ℕ → Except Unit (List PedRow)) (timeField : Option String)
    (offset : ℕ) (acc : List PedRow) : Except Unit (List PedRow × Option String) :=
  match page offset with
  | .error _ =>
    match timeField with
    | some _ => (pedLoopInner page2 0 []).map (fun rows2 => (acc ++ rows2, none))
    | none => .ok (acc, timeField)
  | .ok chunk =>
    if h0 : chunk.length = 0 then .ok (acc, timeField)
    else
      let acc1 := acc ++ chunk
      if h1 : chunk.length < 100 then .ok (acc1, timeField)
      else if h2 : 100000 ≤ offset + chunk.length then .ok (acc1, timeField)
      else pedLoopOuter page page2 timeField (offset + chunk.length) acc1
termination_by 100000 - offset
decreasing_by omega

/-- The time-field candidates probed on the counts dataset. -/
def pedTimeCandidates : List String :=
  ["sensing_date", "date_time", "datetime", "timestamp", "date"]

/-- The count-field candidates probed on the counts dataset. -/
def pedCountCandidates : List String :=
  ["pedestriancount", "pedestrian_count", "hourly_count", "hourlycount",
   "count", "total"]

/-- The hour-of-day accumulation step over fetched pedestrian rows:
resolve the hour (explicit field first, else parsed from the detected
time field), resolve the count, and add to the 24-slot `(sum, count)`
table.  A fractional in-range hour would crash the source
(`hod[2.5].sum` is a property access on `undefined`); such rows are
outside this embedding and are skipped here. -/
def pedHodStep (timeField : Option String) (a : List (ℚ × ℚ)) (r : PedRow) :
    List (ℚ × ℚ) :=
  let hVal : Option ℚ :=
    match r.hourday with
    | some v => some v
    | none =>
      match timeField, r.tsVal with
      | some _, some ts => some ((utcHourOf ts : ℕ) : ℚ)
      | _, _ => none
  match hVal, r.count with
  | some h, some c =>
    if 0 ≤ h ∧ h ≤ 23 ∧ h.den = 1 then
      let idx := h.num.toNat
      let e := a.getD idx (0, 0)
      a.set idx (e.1 + c, e.2 + 1)
    else a
  | _, _ => a

/-- Model of `_proxyAnnualByPedestrian({lat, lng, radiusMeters, startISO, endISO})`
of backend/lib/opendatasoft.js.  `hav` is the planar/haversine distance
used only to order candidate sensors. -/
def _proxyAnnualByPedestrian (hav : ℚ → ℚ → ℚ → ℚ → ℚ) (env : AnnualEnv)
    (lat lng : ℚ) (startISO endISO : ℤ) : Except Unit AnnualResult :=
  let capacity : ℚ :=
    match env.liveIds with
    | .ok ids => ((ids.foldl (fun acc i => setAdd i acc) []).length : ℚ)
    | .error _ => 0
  match env.pedLocRows with
  | .error e => .error e
  | .ok locRows =>
    let locs := locRows.filter (fun p => p.lat.isSome && p.lng.isSome)
    let sorted := List.insertionSort
      (fun a b => hav lat lng (a.lat.getD 0) (a.lng.getD 0)
                ≤ hav lat lng (b.lat.getD 0) (b.lng.getD 0)) locs
    let picked := sorted.take 8
    if picked.length = 0 then
      let cap := if 0 < capacity then capacity else 60
      .ok { capacity := cap, series := syntheticSeries cap startISO endISO }
    else
      let fields : Option String × Option String :=
        match env.probeKeys with
        | .ok keys => (pedTimeCandidates.find? (fun k => keys.contains k),
                       pedCountCandidates.find? (fun k => keys.contains k))
        | .error _ => (none, none)
      match pedLoopOuter env.pedPage env.pedPage2 fields.1 0 [] with
      | .error e => .error e
      | .ok rt =>
        let hod := rt.1.foldl (pedHodStep rt.2) (List.replicate 24 (0, 0))
        let means := (List.range 24).map (fun h =>
          let e := hod.getD h (0, 0)
          if e.2 ≠ 0 then e.1 / e.2 else 0)
        let maxMean := means.foldl max 1
        let freeRatioByH := means.map (fun m =>
          min 1 (max (1/10) (1 - (9/10) * (m / maxMean))))
        let cap := if 0 < capacity then capacity else 60
        let series := (hourStamps startISO endISO).map (fun t =>
          let fr := freeRatioByH.getD (utcHourOf t) (1/2)
          let free := max 0 (min cap (jsRound (cap * fr)))
          { ts := t, occ := cap - free, total := cap, free := free })
        .ok { capacity := cap, series := series }

/-- Model of `fetchAnnualHourlyByRadius({lat, lng, radiusMeters, startISO, endISO,
datasetIds})` of backend/lib/opendatasoft.js.  Tier A (real annual
events) is attempted first inside a try/catch — inert here because the
fetch helper swallows its own failures — and its result is used only if
the series is non-empty with positive capacity.  The Tier B proxy call
that follows is NOT guarded: a rejection inside it escapes to the
caller. -/
def fetchAnnualHourlyByRadius (hav : ℚ → ℚ → ℚ → ℚ → ℚ) (env : AnnualEnv)
    (lat lng : ℚ) (startISO endISO : ℤ) : Except Unit AnnualResult :=
  let rows := _fetchAnnualEventsOverlaps env
  let agg := _aggregateEventsToHourly rows startISO endISO
  if agg.series ≠ [] ∧ 0 < agg.capacity then .ok agg
  else
    match _proxyAnnualByPedestrian hav env lat lng startISO endISO with
    | .error e => .error e
    | .ok proxy =>
      let cap := if 0 < proxy.capacity then proxy.capacity else 60
      let ser := if proxy.series ≠ [] then proxy.series
                 else syntheticSeries cap startISO endISO
      .ok { capacity := cap, series := ser }

-- ==========================================================================
-- backend/lib/opendatasoft.js — fetchLiveSensors paging (claim C9)
-- ==========================================================================

/-- The paging loop of `fetchLiveSensors`: request
`min(PAGE_MAX, desired - collected)` rows per page until the desired
count is collected, a page comes back empty, or a page returns fewer
rows than requested.  `pages offset pageSize` is the upstream's response
to one page request; alongside the rows, the list of issued
`(offset, limit)` requests is returned for inspection. -/
def fetchLiveSensorsLoop {α : Type} (pages : ℕ → ℕ → List α) (desired : ℕ)
    (acc : List α) (reqs : List (ℕ × ℕ)) (offset : ℕ) :
    List α × List (ℕ × ℕ) :=
  if h : acc.length < desired then
    let pageSize := min 100 (desired - acc.length)
    let chunk := pages offset pageSize
    if h0 : chunk.length = 0 then (acc, reqs ++ [(offset, pageSize)])
    else
      let acc1 := acc ++ chunk
      if h1 : chunk.length < pageSize then (acc1, reqs ++ [(offset, pageSize)])
      else fetchLiveSensorsLoop pages desired acc1 (reqs ++ [(offset, pageSize)])
        (offset + chunk.length)
  else (acc, reqs)
termination_by desired - acc.length
decreasing_by
  show desired - (acc ++ chunk).length < desired - acc.length
  simp only [List.length_append]
  omega

/-- Model of `Math.max(1, Math.min(Number(limit) || 100, 5000))`. -/
def desiredOf (limit : ℕ) : ℕ := max 1 (min (if limit = 0 then 100 else limit) 5000)

/-- Model of `fetchLiveSensors({..., limit})` of backend/lib/opendatasoft.js,
returning the collected rows and the issued page requests.  The
coordinate-normalization `.map` applied to the result in the source is
row-count-preserving and is not part of any paging claim. -/
def fetchLiveSensors {α : Type} (pages : ℕ → ℕ → List α) (limit : ℕ) :
    List α × List (ℕ × ℕ) :=
  fetchLiveSensorsLoop pages (desiredOf limit) [] [] 0

-- ==========================================================================
-- Shared lemmas
-- ==========================================================================

theorem clamp01_nonneg (q : ℚ) : 0 ≤ clamp01 q :=
le_min zero_le_one (le_max_left 0 q)

theorem clamp01_le_one (q : ℚ) : clamp01 q ≤ 1 :=
min_le_left 1 (max 0 q)

theorem clamp01_mono {p q : ℚ} (h : p ≤ q) : clamp01 p ≤ clamp01 q :=
min_le_min le_rfl (max_le_max le_rfl h)

theorem jsRound_nonneg {q : ℚ} (h : 0 ≤ q) : 0 ≤ jsRound q := by
  unfold jsRound
  have : (0 : ℤ) ≤ ⌊q + 1/2⌋ := Int.floor_nonneg.mpr (by linarith)
  exact_mod_cast this

theorem jsRound_le_int {q : ℚ} {n : ℤ} (h : q ≤ (n : ℚ)) : jsRound q ≤ (n : ℚ) := by
  unfold jsRound
  have h1 : ⌊q + 1/2⌋ < n + 1 := by
    rw [Int.floor_lt]
    push_cast
    linarith
  exact_mod_cast Int.lt_add_one_iff.mp h1

theorem jsRound_mono {p q : ℚ} (h : p ≤ q) : jsRound p ≤ jsRound q := by
  unfold jsRound
  exact_mod_cast Int.floor_le_floor (by linarith)

theorem toFixed2_nonneg {q : ℚ} (h : 0 ≤ q) : 0 ≤ toFixed2 q := by
  unfold toFixed2
  exact div_nonneg (jsRound_nonneg (by linarith)) (by norm_num)

theorem toFixed2_le_one {q : ℚ} (h : q ≤ 1) : toFixed2 q ≤ 1 := by
  unfold toFixed2
  rw [div_le_one (by norm_num : (0:ℚ) < 100)]
  have := jsRound_le_int (q := q * 100) (n := 100) (by push_cast; linarith)
  exact_mod_cast this

theorem mapGet?_mapSet_self {κ β : Type} [DecidableEq κ] (k : κ) (v : β)
    (m : List (κ × β)) : mapGet? k (mapSet k v m) = some v := by
  induction m with
  | nil => simp [mapSet, mapGet?]
  | cons e t ih =>
    by_cases h : e.1 = k
    · simp [mapSet, mapGet?, h]
    · simp [mapSet, mapGet?, h, ih]

theorem mem_mapSet {κ β : Type} [DecidableEq κ] {k : κ} {v : β}
    {m : List (κ × β)} {e : κ × β} (he : e ∈ mapSet k v m) :
    e = (k, v) ∨ e ∈ m := by
  induction m with
  | nil => simpa [mapSet] using he
  | cons a t ih =>
    by_cases h : a.1 = k
    · simp only [mapSet, if_pos h, List.mem_cons] at he
      rcases he with h1 | h1
      · exact Or.inl h1
      · exact Or.inr (List.mem_cons_of_mem a h1)
    · simp only [mapSet, if_neg h, List.mem_cons] at he
      rcases he with h1 | h1
      · exact Or.inr (h1 ▸ List.mem_cons_self a t)
      · rcases ih h1 with h2 | h2
        · exact Or.inl h2
        · exact Or.inr (List.mem_cons_of_mem a h2)

theorem mapGet?_mem {κ β : Type} [DecidableEq κ] {k : κ} {v : β}
    {m : List (κ × β)} (h : mapGet? k m = some v) : (k, v) ∈ m := by
  induction m with
  | nil => simp [mapGet?] at h
  | cons e t ih =>
    by_cases he : e.1 = k
    · simp only [mapGet?, if_pos he] at h
      have : e = (k, v) := by
        obtain ⟨e1, e2⟩ := e
        simp_all
      exact this ▸ List.mem_cons_self e t
    · simp only [mapGet?, if_neg he] at h
      exact List.mem_cons_of_mem e (ih h)

-- ==========================================================================
-- C2 — forecast point bounds
-- ==========================================================================

theorem hodPoint_bounds (baseTotal : ℤ) (mean q10 q90 : List ℚ) (hod : ℕ) (ts : ℤ)
    (hbt : 0 ≤ baseTotal) :
    (0 ≤ (hodPoint baseTotal mean q10 q90 hod ts).lo80 ∧
      (hodPoint baseTotal mean q10 q90 hod ts).lo80 ≤ (baseTotal : ℚ)) ∧
    (0 ≤ (hodPoint baseTotal mean q10 q90 hod ts).expected_available ∧
      (hodPoint baseTotal mean q10 q90 hod ts).expected_available ≤ (baseTotal : ℚ)) ∧
    (0 ≤ (hodPoint baseTotal mean q10 q90 hod ts).hi80 ∧
      (hodPoint baseTotal mean q10 q90 hod ts).hi80 ≤ (baseTotal : ℚ)) ∧
    (frLoOf mean q10 hod ≤ frOf mean hod →
      (hodPoint baseTotal mean q10 q90 hod ts).lo80
        ≤ (hodPoint baseTotal mean q10 q90 hod ts).expected_available) ∧
    (frOf mean hod ≤ frHiOf mean q90 hod →
      (hodPoint baseTotal mean q10 q90 hod ts).expected_available
        ≤ (hodPoint baseTotal mean q10 q90 hod ts).hi80) := by
  have hbtq : (0 : ℚ) ≤ (baseTotal : ℚ) := by exact_mod_cast hbt
  have hfr0 := clamp01_nonneg (mean.getD hod (1/2))
  have hfr1 := clamp01_le_one (mean.getD hod (1/2))
  have hlo0 := clamp01_nonneg (q10.getD hod (frOf mean hod * (4/5)))
  have hlo1 := clamp01_le_one (q10.getD hod (frOf mean hod * (4/5)))
  have hhi0 := clamp01_nonneg (q90.getD hod (min 1 (frOf mean hod * (11/10))))
  have hhi1 := clamp01_le_one (q90.getD hod (min 1 (frOf mean hod * (11/10))))
  simp only [hodPoint, frOf, frLoOf, frHiOf] at *
  have hexp0 : 0 ≤ jsRound (clamp01 (mean.getD hod (1/2)) * (baseTotal : ℚ)) :=
    jsRound_nonneg (mul_nonneg hfr0 hbtq)
  have hexp1 : jsRound (clamp01 (mean.getD hod (1/2)) * (baseTotal : ℚ)) ≤ (baseTotal : ℚ) :=
    jsRound_le_int (by nlinarith)
  refine ⟨⟨le_max_left _ _, ?_⟩, ⟨hexp0, hexp1⟩, ⟨?_, min_le_left _ _⟩, ?_, ?_⟩
  · exact max_le hbtq (jsRound_le_int (by nlinarith))
  · exact le_min hbtq (jsRound_nonneg (mul_nonneg hhi0 hbtq))
  · intro hle
    exact max_le hexp0 (jsRound_mono (by nlinarith))
  · intro hle
    exact le_min hexp1 (jsRound_mono (by nlinarith))

/-- C2 (counterexample): the claimed chain `lo80 ≤ expected_available`
fails.  With eleven rows at hour 0 whose free-ratios are
`[0, 1, 1, 1, 1, 1, 1, 1, 1, 1, 1]`, the interpolated 10th percentile is
1 while the mean is 10/11, so for `hours = 1 ≥ 1` and
`baseTotal = 11 ≥ 0` the forecast point has `lo80 = 11` but
`expected_available = 10`. -/
theorem C2_counterexample :
    ((forecastNextHoursFromHod 1 11
      (buildHodProfile ({ ts := some 0, free := 0, occ := 0, total := 1 }
        :: List.replicate 10 { ts := some 0, free := 1, occ := 0, total := 1 })).mean
      (buildHodProfile ({ ts := some 0, free := 0, occ := 0, total := 1 }
        :: List.replicate 10 { ts := some 0, free := 1, occ := 0, total := 1 })).q10
      (buildHodProfile ({ ts := some 0, free := 0, occ := 0, total := 1 }
        :: List.replicate 10 { ts := some 0, free := 1, occ := 0, total := 1 })).q90
      0).map (fun p => (p.lo80, p.expected_available)) = [((11 : ℚ), 10)]) ∧
    ¬ ((11 : ℚ) ≤ 10) := by
  constructor
  · norm_num [forecastNextHoursFromHod, hodPoint, buildHodProfile, hodPush, _quantile,
      frOf, frLoOf, frHiOf, clamp01, jsRound, utcHourOf, List.insertionSort,
      List.orderedInsert, List.replicate, List.range_succ, List.getElem?_range,
      List.cons_ne_nil, min_def, max_def]
  · norm_num

/-- C2 (amended): for every `baseTotal ≥ 0`, every list of rows, and every
hour count, each point returned by `forecastNextHoursFromHod` over the
profile built by `buildHodProfile` satisfies `0 ≤ lo80 ≤ total_bays`,
`0 ≤ expected_available ≤ total_bays` and `0 ≤ hi80 ≤ total_bays`
(`total_bays` being the supplied `baseTotal`); the full chain
`lo80 ≤ expected_available ≤ hi80` holds additionally whenever the
profile's clamped 10th percentile is at most its clamped mean, and the
clamped mean at most its clamped 90th percentile, at the point's
hour-of-day — which the empirical `_quantile` does not guarantee. -/
theorem C2_amended (rows : List StoreRow) (hours startHour : ℕ) (baseTotal : ℤ)
    (hbt : 0 ≤ baseTotal) :
    ∀ p ∈ forecastNextHoursFromHod hours baseTotal (buildHodProfile rows).mean
        (buildHodProfile rows).q10 (buildHodProfile rows).q90 startHour,
      (0 ≤ p.lo80 ∧ p.lo80 ≤ (baseTotal : ℚ)) ∧
      (0 ≤ p.expected_available ∧ p.expected_available ≤ (baseTotal : ℚ)) ∧
      (0 ≤ p.hi80 ∧ p.hi80 ≤ (baseTotal : ℚ)) ∧
      ∃ hod,
        p = hodPoint baseTotal (buildHodProfile rows).mean (buildHodProfile rows).q10
          (buildHodProfile rows).q90 hod p.ts ∧
        (frLoOf (buildHodProfile rows).mean (buildHodProfile rows).q10 hod
            ≤ frOf (buildHodProfile rows).mean hod → p.lo80 ≤ p.expected_available) ∧
        (frOf (buildHodProfile rows).mean hod
            ≤ frHiOf (buildHodProfile rows).mean (buildHodProfile rows).q90 hod →
          p.expected_available ≤ p.hi80) := by
  intro p hp
  simp only [forecastNextHoursFromHod, List.mem_map, List.mem_range] at hp
  obtain ⟨i, _, rfl⟩ := hp
  obtain ⟨h1, h2, h3, h4, h5⟩ := hodPoint_bounds baseTotal (buildHodProfile rows).mean
    (buildHodProfile rows).q10 (buildHodProfile rows).q90 ((startHour + i) % 24)
    (((startHour + i : ℕ) : ℤ) * 3600000) hbt
  exact ⟨h1, h2, h3, ⟨(startHour + i) % 24, rfl, h4, h5⟩⟩

/-- C2 (witness for the amended theorem): at `rows = []`, `hours = 1`,
`startHour = 0`, `baseTotal = 1`, the single forecast point satisfies the
proved bounds. -/
theorem C2_amended_witness :
    0 ≤ (hodPoint 1 (buildHodProfile []).mean (buildHodProfile []).q10
        (buildHodProfile []).q90 0 0).lo80 ∧
    (hodPoint 1 (buildHodProfile []).mean (buildHodProfile []).q10
        (buildHodProfile []).q90 0 0).lo80 ≤ ((1 : ℤ) : ℚ) := by
  have h := C2_amended [] 1 0 1 (by norm_num)
    (hodPoint 1 (buildHodProfile []).mean (buildHodProfile []).q10
      (buildHodProfile []).q90 0 0)
    (by simp [forecastNextHoursFromHod, List.range_succ])
  exact h.1

-- ==========================================================================
-- C5 — Tier A hourly aggregation on the specified single row
-- ==========================================================================

/-- C5 (confirmed): for the single row `{bay: "A",
arrival: 2024-01-01T10:00Z, departure: 2024-01-01T12:30Z}` (epoch ms
1704103200000 and 1704112200000) and the window
`[2024-01-01T00:00Z, 2024-01-01T23:59Z]` (1704067200000 to
1704153540000), `_aggregateEventsToHourly` produces capacity 1 and a
series with occupied = 1 exactly in the buckets of hours 10, 11 and 12
UTC of that day. -/
theorem C5_tierA_single_row :
    _aggregateEventsToHourly
      [{ recordid := none, bay := some "A",
         arrival := some 1704103200000, departure := some 1704112200000 }]
      1704067200000 1704153540000 =
    { capacity := 1,
      series := [{ ts := 1704103200000, occ := 1, total := 1, free := 0 },
                 { ts := 1704106800000, occ := 1, total := 1, free := 0 },
                 { ts := 1704110400000, occ := 1, total := 1, free := 0 }] } := by
  have h1 : max (1704103200000 : ℤ) 1704067200000 = 1704103200000 := by decide
  have h2 : min (1704112200000 : ℤ) 1704153540000 = 1704112200000 := by decide
  have hA : ¬ ("A" : String) = "" := by decide
  norm_num [_aggregateEventsToHourly, evStep, hourWalk, _floorHourUTC, mapSet, mapGet?,
    setAdd, List.insertionSort, List.orderedInsert, h1, h2, hA, min_def, max_def]

-- ==========================================================================
-- C3 / C4 / C6 — spatial aggregation lemmas
-- ==========================================================================

theorem bumpBucket_total (now : ℤ) (p : SensorItem) (b : AreaBucket) :
    (bumpBucket now p b).total_bays = b.total_bays + capNum p := by
  unfold bumpBucket
  dsimp only
  split <;> split <;> (try split) <;> rfl

theorem bumpBucket_avail (now : ℤ) (p : SensorItem) (b : AreaBucket) :
    (bumpBucket now p b).available_bays = b.available_bays + availNum p := by
  unfold bumpBucket
  dsimp only
  split <;> split <;> (try split) <;> rfl

theorem bumpBucket_now_indep {p : SensorItem} (now₁ now₂ : ℤ) (b : AreaBucket)
    (h : p.updated_at ≠ none) : bumpBucket now₁ p b = bumpBucket now₂ p b := by
  obtain ⟨t, ht⟩ := Option.ne_none_iff_exists'.mp h
  simp only [bumpBucket, ht, Option.getD_some]

theorem aggStep_now_indep {p : SensorItem} (ltc : ℚ → ℚ → ℕ → ℕ) (now₁ now₂ : ℤ)
    (res : ℕ) (m : List (ℕ × AreaBucket)) (h : p.updated_at ≠ none) :
    aggStep ltc now₁ res m p = aggStep ltc now₂ res m p := by
  cases hla : p.lat <;> cases hlo : p.lng <;>
    simp only [aggStep, hla, hlo] <;>
    rw [bumpBucket_now_indep now₁ now₂ _ h]

theorem aggBuckets_go_now_indep (ltc : ℚ → ℚ → ℕ → ℕ) (now₁ now₂ : ℤ) (res : ℕ) :
    ∀ (items : List SensorItem) (m : List (ℕ × AreaBucket)),
      (∀ r ∈ items, r.updated_at ≠ none) →
      items.foldl (aggStep ltc now₁ res) m = items.foldl (aggStep ltc now₂ res) m := by
  intro items
  induction items with
  | nil => intro m _; rfl
  | cons r t ih =>
    intro m h
    simp only [List.foldl_cons]
    rw [aggStep_now_indep ltc now₁ now₂ res m (h r (List.mem_cons_self r t)),
        ih _ (fun x hx => h x (List.mem_cons_of_mem r hx))]

theorem aggStep_preserves_bounds {p : SensorItem} {m : List (ℕ × AreaBucket)}
    (ltc : ℚ → ℚ → ℕ → ℕ) (now : ℤ) (res : ℕ)
    (hr : 0 ≤ availNum p ∧ availNum p ≤ capNum p)
    (hm : ∀ e ∈ m, 0 ≤ e.2.available_bays ∧ e.2.available_bays ≤ e.2.total_bays) :
    ∀ e ∈ aggStep ltc now res m p,
      0 ≤ e.2.available_bays ∧ e.2.available_bays ≤ e.2.total_bays := by
  intro e he
  cases hla : p.lat with
  | none => rw [aggStep, hla] at he; exact hm e he
  | some la =>
    cases hlo : p.lng with
    | none => rw [aggStep, hla, hlo] at he; exact hm e he
    | some lo =>
      rw [aggStep, hla, hlo] at he
      rcases mem_mapSet he with rfl | hmem
      · cases hg : mapGet? (ltc la lo res) m with
        | none =>
          simp only [hg, Option.getD_none, bumpBucket_avail, bumpBucket_total]
          constructor
          · linarith [hr.1]
          · linarith [hr.2]
        | some b =>
          simp only [hg, Option.getD_some, bumpBucket_avail, bumpBucket_total]
          have hb := hm _ (mapGet?_mem hg)
          constructor
          · linarith [hb.1, hr.1]
          · linarith [hb.2, hr.2]
      · exact hm e hmem

theorem aggBuckets_go_bounds (ltc : ℚ → ℚ → ℕ → ℕ) (now : ℤ) (res : ℕ) :
    ∀ (items : List SensorItem) (m : List (ℕ × AreaBucket)),
      (∀ r ∈ items, 0 ≤ availNum r ∧ availNum r ≤ capNum r) →
      (∀ e ∈ m, 0 ≤ e.2.available_bays ∧ e.2.available_bays ≤ e.2.total_bays) →
      ∀ e ∈ items.foldl (aggStep ltc now res) m,
        0 ≤ e.2.available_bays ∧ e.2.available_bays ≤ e.2.total_bays := by
  intro items
  induction items with
  | nil => intro m _ hm; exact hm
  | cons r t ih =>
    intro m h hm
    simp only [List.foldl_cons]
    exact ih _ (fun x hx => h x (List.mem_cons_of_mem r hx))
      (aggStep_preserves_bounds ltc now res (h r (List.mem_cons_self r t)) hm)

/-- C3 (amended): for every input and resolution, every returned
`AreaCell` has `occupancy_rate = Number((1 - available/total).toFixed(2))`
when `total_bays > 0`, and `occupancy_rate = 0` when `total_bays = 0`;
the bound `0 ≤ occupancy_rate ≤ 1` holds additionally whenever every
input record's coerced available count lies between 0 and its coerced
capacity — true of every record the normalizer produces, but not of an
arbitrary record with `available_spots > capacity`. -/
theorem C3_amended (ltc : ℚ → ℚ → ℕ → ℕ) (ctl : ℕ → ℚ × ℚ)
    (ctb : ℕ → List (ℚ × ℚ)) (now : ℤ) (items : List SensorItem) (res : ℕ) :
    ∀ a ∈ aggregateSensorsToAreas ltc ctl ctb now items res,
      (0 < a.total_bays →
        a.occupancy_rate = toFixed2 (1 - a.available_bays / a.total_bays)) ∧
      (a.total_bays = 0 → a.occupancy_rate = 0) ∧
      ((∀ r ∈ items, 0 ≤ availNum r ∧ availNum r ≤ capNum r) →
        0 < a.total_bays → 0 ≤ a.occupancy_rate ∧ a.occupancy_rate ≤ 1) := by
  intro a ha
  simp only [aggregateSensorsToAreas, List.mem_map] at ha
  obtain ⟨e, he, rfl⟩ := ha
  simp only [toAreaCell]
  refine ⟨?_, ?_, ?_⟩
  · intro hpos
    rw [if_pos hpos]
  · intro h0
    rw [if_neg (by rw [h0]; exact lt_irrefl 0)]
    norm_num [toFixed2, jsRound]
  · intro hrec hpos
    have hb := aggBuckets_go_bounds ltc now res items [] hrec (by simp) e he
    rw [if_pos hpos]
    have hofr : (0 : ℚ) ≤ 1 - e.2.available_bays / e.2.total_bays := by
      have := div_le_one_of_le₀ hb.2 (le_of_lt hpos)
      linarith
    have hofr1 : 1 - e.2.available_bays / e.2.total_bays ≤ 1 := by
      have := div_nonneg hb.1 (le_of_lt hpos)
      linarith
    exact ⟨toFixed2_nonneg hofr, toFixed2_le_one hofr1⟩

/-- C3 (counterexample): a single record with `available_spots = 2` but
`capacity = 1` yields a cell with `total_bays = 1 > 0` and
`occupancy_rate = -1`, outside `[0, 1]` — refuting the claim for
arbitrary input record lists. -/
theorem C3_counterexample :
    ((aggregateSensorsToAreas (fun _ _ _ => 0) (fun _ => (0, 0)) (fun _ => [])
        0 [{ id := none, lat := some 0, lng := some 0, capacity := some 1,
             available_spots := some 2, updated_at := some 0 }] 9).map
      (fun a => (a.total_bays, a.occupancy_rate)) = [((1 : ℚ), -1)]) ∧
    ¬ ((0 : ℚ) ≤ -1) := by
  constructor
  · norm_num [aggregateSensorsToAreas, aggBuckets, aggStep, bumpBucket, toAreaCell,
      mapGet?, mapSet, capNum, availNum, toFixed2, jsRound]
  · norm_num

/-- C3 (witness for the amended theorem): a record with capacity 2 and one
available spot aggregates to a cell with `occupancy_rate = 0.5 ∈ [0, 1]`. -/
theorem C3_amended_witness :
    0 ≤ ({ area_id := 0, center := (0, 0), boundary := [], total_bays := 2,
           available_bays := 1, occupancy_rate := 1/2, updated_at := some 5,
           sample_bays := ["i"] } : AreaCell).occupancy_rate ∧
    ({ area_id := 0, center := (0, 0), boundary := [], total_bays := 2,
       available_bays := 1, occupancy_rate := 1/2, updated_at := some 5,
       sample_bays := ["i"] } : AreaCell).occupancy_rate ≤ 1 := by
  have h := C3_amended (fun _ _ _ => 0) (fun _ => (0, 0)) (fun _ => []) 0
    [{ id := some "i", lat := some 0, lng := some 0, capacity := some 2,
       available_spots := some 1, updated_at := some 5 }] 9
    { area_id := 0, center := (0, 0), boundary := [], total_bays := 2,
      available_bays := 1, occupancy_rate := 1/2, updated_at := some 5,
      sample_bays := ["i"] }
    (by norm_num [aggregateSensorsToAreas, aggBuckets, aggStep, bumpBucket, toAreaCell,
          mapGet?, mapSet, capNum, availNum, toFixed2, jsRound])
  exact h.2.2
    (by intro r hr; simp only [List.mem_singleton] at hr; subst hr;
        norm_num [availNum, capNum])
    (by norm_num)

/-- C4 (confirmed): appending a record with `available_spots = null`
(and finite coordinates and capacity `c`) to any input leaves its cell's
`available_bays` unchanged and raises that cell's `total_bays` by exactly
`c` — unknown availability is not coerced into an availability count,
and the aggregate has no occupied tally for it to be added to. -/
theorem C4_null_not_counted (ltc : ℚ → ℚ → ℕ → ℕ) (now : ℤ) (res : ℕ)
    (items : List SensorItem) (r : SensorItem) (la lo c : ℚ)
    (hnull : r.available_spots = none) (hla : r.lat = some la)
    (hlo : r.lng = some lo) (hc : r.capacity = some c) :
    ((mapGet? (ltc la lo res) (aggBuckets ltc now (items ++ [r]) res)).map
        (fun b => b.total_bays)).getD 0
      = ((mapGet? (ltc la lo res) (aggBuckets ltc now items res)).map
        (fun b => b.total_bays)).getD 0 + c ∧
    ((mapGet? (ltc la lo res) (aggBuckets ltc now (items ++ [r]) res)).map
        (fun b => b.available_bays)).getD 0
      = ((mapGet? (ltc la lo res) (aggBuckets ltc now items res)).map
        (fun b => b.available_bays)).getD 0 := by
  have hfold : aggBuckets ltc now (items ++ [r]) res
      = aggStep ltc now res (aggBuckets ltc now items res) r := by
    simp [aggBuckets, List.foldl_append]
  rw [hfold]
  rw [aggStep, hla, hlo]
  rw [mapGet?_mapSet_self]
  have hcap : capNum r = c := by simp [capNum, hc]
  have hav : availNum r = 0 := by simp [availNum, hnull]
  cases hm : mapGet? (ltc la lo res) (aggBuckets ltc now items res) with
  | none => simp [bumpBucket_total, bumpBucket_avail, hcap, hav]
  | some b => simp [bumpBucket_total, bumpBucket_avail, hcap, hav]

/-- C4 (witness): a concrete null-availability record appended to the
empty input leaves the cell's available count at 0. -/
theorem C4_null_not_counted_witness :
    ((mapGet? ((fun _ _ _ => 0) 1 2 9)
        (aggBuckets (fun _ _ _ => (0 : ℕ)) 0
          ([] ++ [{ id := some "x", lat := some 1, lng := some 2, capacity := some 3,
                    available_spots := none, updated_at := some 7 }]) 9)).map
        (fun b => b.available_bays)).getD 0
      = ((mapGet? ((fun _ _ _ => 0) 1 2 9)
        (aggBuckets (fun _ _ _ => (0 : ℕ)) 0 [] 9)).map
        (fun b => b.available_bays)).getD 0 :=
  (C4_null_not_counted (fun _ _ _ => 0) 0 9 []
    { id := some "x", lat := some 1, lng := some 2, capacity := some 3,
      available_spots := none, updated_at := some 7 } 1 2 3 rfl rfl rfl rfl).2

/-- C6 (counterexample): running `aggregateSensorsToAreas` twice on the
identical one-record input — the record lacking an `updated_at` — gives
different `AreaCell` arrays when the two runs happen at different wall
clock times (`Date.now()` = 0 vs 3600000): the first run leaves
`updated_at` null, the second stamps it with the current time.  The
output is therefore not a function of the record list alone. -/
theorem C6_counterexample :
    aggregateSensorsToAreas (fun _ _ _ => 0) (fun _ => (0, 0)) (fun _ => []) 0
      [{ id := none, lat := some 0, lng := some 0, capacity := some 1,
         available_spots := some 1, updated_at := none }] 9
    ≠ aggregateSensorsToAreas (fun _ _ _ => 0) (fun _ => (0, 0)) (fun _ => []) 3600000
      [{ id := none, lat := some 0, lng := some 0, capacity := some 1,
         available_spots := some 1, updated_at := none }] 9 := by
  intro hcontra
  have h2 := congrArg (fun l => l.map (fun a : AreaCell => a.updated_at)) hcontra
  norm_num [aggregateSensorsToAreas, aggBuckets, aggStep, bumpBucket, toAreaCell,
    mapGet?, mapSet] at h2
  exact Option.noConfusion h2

/-- C6 (amended): cell assignment is a pure function of
`(lat, lng, resolution)` (the embedding takes it as a function, which the
h3 library is), and aggregation run twice on the identical record list —
at arbitrary, possibly different wall-clock instants — yields identical
`AreaCell` arrays provided every record carries a truthy `updated_at`;
a record without one is stamped with `Date.now()`, so only then can
repeated runs differ (and only in `updated_at`). -/
theorem C6_amended (ltc : ℚ → ℚ → ℕ → ℕ) (ctl : ℕ → ℚ × ℚ)
    (ctb : ℕ → List (ℚ × ℚ)) (now₁ now₂ : ℤ) (items : List SensorItem) (res : ℕ)
    (h : ∀ r ∈ items, r.updated_at ≠ none) :
    aggregateSensorsToAreas ltc ctl ctb now₁ items res
      = aggregateSensorsToAreas ltc ctl ctb now₂ items res := by
  unfold aggregateSensorsToAreas aggBuckets
  rw [aggBuckets_go_now_indep ltc now₁ now₂ res items [] h]

/-- C6 (witness for the amended theorem): with a record carrying
`updated_at`, two runs at wall-clock 0 and 99 agree. -/
theorem C6_amended_witness :
    aggregateSensorsToAreas (fun _ _ _ => 0) (fun _ => (0, 0)) (fun _ => []) 0
      [{ id := none, lat := some 0, lng := some 0, capacity := some 1,
         available_spots := some 1, updated_at := some 5 }] 9
    = aggregateSensorsToAreas (fun _ _ _ => 0) (fun _ => (0, 0)) (fun _ => []) 99
      [{ id := none, lat := some 0, lng := some 0, capacity := some 1,
         available_spots := some 1, updated_at := some 5 }] 9 :=
  C6_amended (fun _ _ _ => 0) (fun _ => (0, 0)) (fun _ => []) 0 99
    [{ id := none, lat := some 0, lng := some 0, capacity := some 1,
       available_spots := some 1, updated_at := some 5 }] 9
    (by intro r hr; simp only [List.mem_singleton] at hr; subst hr; simp)

-- ==========================================================================
-- C1 — the Tier B error path of fetchAnnualHourlyByRadius
-- ==========================================================================

/-- C1 (code evaluated at the failing input): with every annual-events
fetch yielding no rows (Tier A unusable) and the pedestrian
sensor-locations request rejecting — a timeout or transport error —
`fetchAnnualHourlyByRadius` propagates the rejection to its caller
instead of falling through to the synthetic Tier C curve: the
sensor-locations `await` inside `_proxyAnnualByPedestrian` and the proxy
call itself are not wrapped in any try/catch.  This contradicts the
source's own comment on the proxy call ("必定返回非空序列" — necessarily
returns a non-empty series) and the specified Tier C guarantee. -/
theorem C1_tierB_error_escapes :
    fetchAnnualHourlyByRadius (fun _ _ _ _ => 0)
      { annualFetched := [], liveIds := .error (), pedLocRows := .error (),
        probeKeys := .error (), pedPage := fun _ => .ok [], pedPage2 := fun _ => .ok [] }
      0 0 0 3600000 = .error () := by
  rfl

-- ==========================================================================
-- C7 — status-string normalization
-- ==========================================================================

/-- C7 (confirmed): normalizing a raw row whose status value is the string
`"UNOCCUPIED "` (mixed case, trailing space) yields
`available_spots = 1`; and the matching is trim/case-insensitive and
substring-tolerant: any status string whose trimmed lower-cased form
contains `"vacant"` is resolved to free. -/
theorem C7_status_matching :
    ((mapSensorRecordToParking 0
        { lat := some 0, lon := some 0, resolvedId := none,
          statusVal := some (.str "UNOCCUPIED ".data), updated := none }).available_spots
      = some 1) ∧
    ∀ s : List Char, containsSub "vacant".data (jsToLower (jsTrim s)) = true →
      inferAvailability (some (.str s)) = some true := by
  constructor
  · rfl
  · intro s hsub
    simp only [inferAvailability]
    by_cases h1 : memStr (jsToLower (jsTrim s)) freeWords = true
    · simp [h1]
    · by_cases h2 : memStr (jsToLower (jsTrim s)) occupiedWords = true
      · exfalso
        have hex : ∃ w ∈ occupiedWords, w = jsToLower (jsTrim s) := by
          simpa [memStr, List.any_eq_true] using h2
        obtain ⟨w, hw, hweq⟩ := hex
        rw [← hweq] at hsub
        simp only [occupiedWords, List.mem_cons, List.not_mem_nil, or_false] at hw
        rcases hw with rfl | rfl | rfl | rfl | rfl | rfl | rfl
        · exact absurd hsub (by decide)
        · exact absurd hsub (by decide)
        · exact absurd hsub (by decide)
        · exact absurd hsub (by decide)
        · exact absurd hsub (by decide)
        · exact absurd hsub (by decide)
        · exact absurd hsub (by decide)
      · simp [h1, h2, hsub]

/-- C7 (witness): the string `" is VACANT today "` contains `"vacant"`
after trimming and lower-casing, and is resolved to free. -/
theorem C7_status_matching_witness :
    containsSub "vacant".data (jsToLower (jsTrim " is VACANT today ".data)) = true ∧
    inferAvailability (some (.str " is VACANT today ".data)) = some true :=
  ⟨by decide, C7_status_matching.2 " is VACANT today ".data (by decide)⟩

-- ==========================================================================
-- C8 — the in-memory store prunes to a 30-day window on every write
-- ==========================================================================

/-- C8 (confirmed): after any `recordAreaSample(areaId, sample)` call with
a truthy `areaId`, every bucket retained for that `areaId` has an hour
key no older than 30 days before the wall clock of the write — the
insert-or-merge is followed by `_pruneOld(buckets, 30)` on the same
area's bucket map. -/
theorem C8_store_pruned (now : ℤ) (areaId : String) (s : AreaSample)
    (store : AreaStore) (hid : ¬ areaId = "") :
    ∀ e ∈ (mapGet? areaId (recordAreaSample now areaId s store)).getD
        ([] : List (ℤ × HourRec)),
      now - 30 * 24 * 3600 * 1000 ≤ e.1 := by
  intro e he
  unfold recordAreaSample at he
  rw [if_neg hid] at he
  rw [mapGet?_mapSet_self] at he
  simp only [Option.getD_some] at he
  unfold _pruneOld at he
  have hf := List.of_mem_filter he
  simp only [decide_eq_true_eq, not_lt] at hf
  linarith

/-- C8 (witness): writing a sample stamped at hour 0 exactly 30 days
after the epoch keeps the merged bucket at key 0, which sits exactly on
the retention boundary. -/
theorem C8_store_pruned_witness :
    (2592000000 : ℤ) - 30 * 24 * 3600 * 1000 ≤
      (((0 : ℤ), ({ free := 6, occ := 5, total := 11, n := 2 } : HourRec))).1 := by
  refine C8_store_pruned 2592000000 "a"
    { free := 1, occ := 0, total := 1, ts := some 0 }
    [("a", [(0, { free := 5, occ := 5, total := 10, n := 1 })])]
    (by decide) ((0 : ℤ), ({ free := 6, occ := 5, total := 11, n := 2 } : HourRec)) ?_
  norm_num [recordAreaSample, mapGet?, mapSet, _pruneOld, _floorHourUTC]

-- ==========================================================================
-- C9 — fetchLiveSensors paging
-- ==========================================================================

theorem fetchLiveSensorsLoop_spec {α : Type} (pages : ℕ → ℕ → List α) (desired : ℕ)
    (Hp : ∀ o n, (pages o n).length ≤ n) :
    ∀ (fuel : ℕ) (acc : List α) (reqs : List (ℕ × ℕ)) (offset : ℕ),
      desired - acc.length ≤ fuel → acc.length ≤ desired →
      (∀ q ∈ reqs, q.2 ≤ 100) →
      (fetchLiveSensorsLoop pages desired acc reqs offset).1.length ≤ desired ∧
      (∀ q ∈ (fetchLiveSensorsLoop pages desired acc reqs offset).2, q.2 ≤ 100) := by
  intro fuel
  induction fuel with
  | zero =>
    intro acc reqs offset hfuel hacc hreqs
    have hnot : ¬ acc.length < desired := by omega
    rw [fetchLiveSensorsLoop.eq_def, dif_neg hnot]
    exact ⟨hacc, hreqs⟩
  | succ n ih =>
    intro acc reqs offset hfuel hacc hreqs
    rw [fetchLiveSensorsLoop.eq_def]
    by_cases hlt : acc.length < desired
    · rw [dif_pos hlt]
      have hps100 : min 100 (desired - acc.length) ≤ 100 := min_le_left _ _
      have hpsd : min 100 (desired - acc.length) ≤ desired - acc.length := min_le_right _ _
      have hchunk := Hp offset (min 100 (desired - acc.length))
      have hreqs' : ∀ q ∈ reqs ++ [(offset, min 100 (desired - acc.length))], q.2 ≤ 100 := by
        intro q hq
        rcases List.mem_append.mp hq with hq | hq
        · exact hreqs q hq
        · simp only [List.mem_singleton] at hq
          subst hq
          exact hps100
      dsimp only
      split_ifs with h0 h1
      · exact ⟨hacc, hreqs'⟩
      · constructor
        · simp only [List.length_append]
          omega
        · exact hreqs'
      · refine ih (acc ++ pages offset (min 100 (desired - acc.length)))
          (reqs ++ [(offset, min 100 (desired - acc.length))])
          (offset + (pages offset (min 100 (desired - acc.length))).length) ?_ ?_ hreqs'
        · simp only [List.length_append]
          omega
        · simp only [List.length_append]
          omega
    · rw [dif_neg hlt]
      exact ⟨hacc, hreqs⟩

/-- C9 (counterexample): the claim quantifies over every sequence of page
responses, but a page that returns more rows than requested is passed
straight through: with the upstream answering every request with two
rows, `fetchLiveSensors` with a desired count of 1 requests one row yet
returns two. -/
theorem C9_counterexample :
    (fetchLiveSensors (fun _ _ => [(0 : ℕ), 1]) 1).1.length = 2 ∧
    ¬ ((2 : ℕ) ≤ desiredOf 1) := by
  constructor
  · rw [fetchLiveSensors, fetchLiveSensorsLoop.eq_def]
    norm_num [desiredOf]
    rw [fetchLiveSensorsLoop.eq_def]
    norm_num
  · norm_num [desiredOf]

/-- C9 (amended): `fetchLiveSensors` requests at most 100 rows per page
and stops when either the collected count reaches the desired count or a
page returns fewer rows than requested (an empty page included);
provided each page response contains at most the requested number of
rows — which an upstream honouring the `limit` parameter does — the
returned array never holds more rows than the desired count.  A page
returning more rows than requested is passed through unchecked, so for
such upstreams the bound fails (see the counterexample). -/
theorem C9_amended {α : Type} (pages : ℕ → ℕ → List α) (limit : ℕ)
    (Hp : ∀ o n, (pages o n).length ≤ n) :
    (fetchLiveSensors pages limit).1.length ≤ desiredOf limit ∧
    ∀ q ∈ (fetchLiveSensors pages limit).2, q.2 ≤ 100 := by
  unfold fetchLiveSensors
  exact fetchLiveSensorsLoop_spec pages (desiredOf limit) Hp (desiredOf limit) [] [] 0
    (by simp) (by simp) (by simp)

/-- C9 (witness for the amended theorem): an upstream answering with at
most one row per request never overfills a desired count of 3. -/
theorem C9_amended_witness :
    (fetchLiveSensors (fun _ n => List.replicate (min n 1) (0 : ℕ)) 3).1.length
      ≤ desiredOf 3 :=
  (C9_amended (fun _ n => List.replicate (min n 1) (0 : ℕ)) 3
    (fun _ n => by simpa using min_le_left n 1)).1

-- ==========================================================================
-- C10 — rankAreas is a field-preserving permutation
-- ==========================================================================

/-- C10 (confirmed): for every origin and strategy, `rankAreas` returns a
permutation of its input in which each element is exactly its input cell
(every `AreaCell` field unchanged) extended with the two fields
`_distance_m` and `_score` — projecting the extension away recovers the
input list up to the sort's reordering. -/
theorem C10_rankAreas_perm (hav : ℚ → ℚ → ℚ → ℚ → ℚ) (lat lng : Option ℚ)
    (by_ : String) (areas : List AreaCell) :
    ((rankAreas hav lat lng by_ areas).map (fun r => r.area)).Perm areas := by
  unfold rankAreas
  have h := (List.perm_insertionSort (fun x y : RankedArea => y.score ≤ x.score)
    (areas.map (scoreArea hav lat lng by_))).map (fun r : RankedArea => r.area)
  rw [List.map_map] at h
  have hcomp : ((fun r : RankedArea => r.area) ∘ scoreArea hav lat lng by_)
      = fun a => a := funext fun a => rfl
  rw [hcomp] at h
  simpa using h
